import Mathlib

/-!
Verification development for the DND_solo mediation layer: a shallow
embedding of the response normalizer (`utils.ts`), the rules engine
(`gameRules.ts`), and the session state machine / roll resolution
(`useGameEngine.ts`), together with theorems settling the frozen claims.

Modelling conventions:
* JavaScript values are embedded as the inductive `Json` below; `undefined`
  models `undefined` and is distinct from `null`.
* JavaScript numbers are modelled as integers; `Option Int` is used where
  `NaN` (or number-or-undefined) can flow, with `none` standing for `NaN`.
  Fractional values do not occur in any behaviour the claims exercise.
* Code that can throw (`TypeError` on property access of `null`/`undefined`)
  is modelled in `Except Unit`; total member access is used only where the
  source has already guarded the receiver.
* Randomness (`Math.random`) is modelled by an explicit draw function
  `rand : Nat → Nat → Nat`, where `rand i m` is the `i`-th draw of
  `Math.floor(Math.random() * m)`.
-/

namespace DndSolo

/-- JS runtime values (payloads from the narrative service, mechanics
annotations, etc.).  `undefined` is JavaScript `undefined`. -/
inductive Json where
  | undefined : Json
  | null : Json
  | bool : Bool → Json
  | num : Int → Json
  | str : String → Json
  | arr : List Json → Json
  | obj : List (String × Json) → Json

instance : Inhabited Json := ⟨Json.undefined⟩

/-- JS truthiness.  (`NaN` is not representable at payload level; numbers are
integers, so a number is falsy exactly when it is `0`.) -/
def Json.truthy : Json → Bool
  | .undefined => false
  | .null => false
  | .bool b => b
  | .num n => n != 0
  | .str s => s != ""
  | .arr _ => true
  | .obj _ => true

/-- `x && typeof x === 'object'`: truthy and of object type (arrays included,
`null` excluded by truthiness). -/
def Json.isObjectLike : Json → Bool
  | .arr _ => true
  | .obj _ => true
  | _ => false

def Json.isUndefined : Json → Bool
  | .undefined => true
  | _ => false

/-- Total member access `receiver[key]` for receivers on which JS cannot
throw: missing members are `undefined`; primitives have none of the members
the source reads. -/
def jsGetT (j : Json) (k : String) : Json :=
  match j with
  | .obj fs => ((fs.find? (fun p => p.1 == k)).map Prod.snd).getD .undefined
  | _ => .undefined

/-- Member access on an unguarded receiver: JS throws a `TypeError` when the
receiver is `null` or `undefined`. -/
def jsGetE (j : Json) (k : String) : Except Unit Json :=
  match j with
  | .null => .error ()
  | .undefined => .error ()
  | _ => .ok (jsGetT j k)

/-- `value === "lit"` (strict equality against a string literal). -/
def jsStrEq (j : Json) (s : String) : Bool :=
  match j with
  | .str t => t == s
  | _ => false

/-! ### String primitives -/

/-- `String.prototype.toLowerCase` restricted to the alphabets the source's
vocabularies use: ASCII and the Russian Cyrillic block. -/
def charToLowerJs (c : Char) : Char :=
  if c.val ≥ 65 ∧ c.val ≤ 90 then Char.ofNat (c.toNat + 32)
  else if c.val ≥ 0x410 ∧ c.val ≤ 0x42F then Char.ofNat (c.toNat + 0x20)
  else if c.val = 0x401 then Char.ofNat 0x451
  else c

def toLowerJs (s : String) : String :=
  String.mk (s.toList.map charToLowerJs)

def listStartsWith : List Char → List Char → Bool
  | [], _ => true
  | _ :: _, [] => false
  | n :: ns, h :: hs => n == h && listStartsWith ns hs

def listInfix (needle : List Char) : List Char → Bool
  | [] => needle.isEmpty
  | h :: hs => listStartsWith needle (h :: hs) || listInfix needle hs

/-- `String.prototype.includes` (substring test). -/
def strContains (hay needle : String) : Bool :=
  listInfix needle.toList hay.toList

/-- `String.prototype.trim`. -/
def trimJs (s : String) : String :=
  String.mk ((s.toList.dropWhile Char.isWhitespace).reverse.dropWhile Char.isWhitespace |>.reverse)

/-- `String.prototype.split(sep)` for a single-character separator. -/
def splitOnCharAux (sep : Char) : List Char → List (List Char)
  | [] => [[]]
  | c :: rest =>
    let r := splitOnCharAux sep rest
    if c = sep then [] :: r
    else
      match r with
      | h :: t => (c :: h) :: t
      | [] => [[c]]

def splitCharJs (s : String) (sep : Char) : List String :=
  (splitOnCharAux sep s.toList).map String.mk

/-! ### Number parsing (JS numbers modelled as integers) -/

def digitsToNat (ds : List Char) : Nat :=
  ds.foldl (fun acc c => acc * 10 + (c.toNat - 48)) 0

/-- `parseInt(s)`: skip leading whitespace, optional sign, take leading
decimal digits; `NaN` (`none`) when no digit is found. -/
def parseIntJs (s : String) : Option Int :=
  let cs := s.toList.dropWhile Char.isWhitespace
  let core : List Char → Option Int := fun l =>
    let ds := l.takeWhile Char.isDigit
    if ds.isEmpty then none else some (Int.ofNat (digitsToNat ds))
  match cs with
  | '-' :: rest => (core rest).map Int.neg
  | '+' :: rest => core rest
  | l => core l

/-- `parseFloat(s)` restricted to the integer values the claims exercise:
leading signed digit run (a fractional tail is ignored by `parseInt` and
never reached by the spec's inputs). -/
def parseFloatJs (s : String) : Option Int := parseIntJs s

/-- `Number(s)`: empty/whitespace-only string is `0`; otherwise the whole
trimmed string must be a signed decimal integer, else `NaN` (`none`).
(Fractional literals are outside the modelled fragment.) -/
def numberJs (s : String) : Option Int :=
  let cs := (s.toList.dropWhile Char.isWhitespace).reverse.dropWhile Char.isWhitespace |>.reverse
  if cs.isEmpty then some 0
  else
    let core : List Char → Option Int := fun l =>
      if l.isEmpty then none
      else if l.all Char.isDigit then some (Int.ofNat (digitsToNat l)) else none
    match cs with
    | '-' :: rest => (core rest).map Int.neg
    | '+' :: rest => core rest
    | l => core l

/-! ### `String(value)` and `JSON.stringify` -/

mutual

/-- `String(value)`. -/
def jsToString : Json → String
  | .undefined => "undefined"
  | .null => "null"
  | .bool true => "true"
  | .bool false => "false"
  | .num n => toString n
  | .str s => s
  | .arr xs => jsToStringArr xs
  | .obj _ => "[object Object]"

/-- `Array.prototype.toString`: elements joined by commas, with `null` and
`undefined` rendered as the empty string. -/
def jsToStringArr : List Json → String
  | [] => ""
  | [x] => jsToStringElem x
  | x :: xs => jsToStringElem x ++ "," ++ jsToStringArr xs

def jsToStringElem : Json → String
  | .undefined => ""
  | .null => ""
  | .bool true => "true"
  | .bool false => "false"
  | .num n => toString n
  | .str s => s
  | .arr xs => jsToStringArr xs
  | .obj _ => "[object Object]"

end

def quoteChar : Char := Char.ofNat 34
def braceL : Char := Char.ofNat 123
def braceR : Char := Char.ofNat 125
def backslashChar : Char := Char.ofNat 92

def escapeJsonChar (c : Char) : List Char :=
  if c = quoteChar then [backslashChar, quoteChar]
  else if c = backslashChar then [backslashChar, backslashChar]
  else [c]

def escapeJsonString (s : String) : String :=
  String.mk (s.toList.flatMap escapeJsonChar)

mutual

/-- `JSON.stringify` (on the defined values the source feeds it:
object-field values that are `undefined` are omitted, `undefined` array
elements become `null`). -/
def stringifyJs : Json → String
  | .undefined => "null"
  | .null => "null"
  | .bool true => "true"
  | .bool false => "false"
  | .num n => toString n
  | .str s => String.singleton quoteChar ++ escapeJsonString s ++ String.singleton quoteChar
  | .arr xs => "[" ++ String.intercalate "," (stringifyJsList xs) ++ "]"
  | .obj fs => String.singleton braceL ++ String.intercalate "," (stringifyJsFields fs) ++ String.singleton braceR

def stringifyJsList : List Json → List String
  | [] => []
  | x :: xs => stringifyJs x :: stringifyJsList xs

def stringifyJsFields : List (String × Json) → List String
  | [] => []
  | (k, v) :: ps =>
    if v.isUndefined then stringifyJsFields ps
    else (String.singleton quoteChar ++ escapeJsonString k ++ String.singleton quoteChar ++ ":" ++ stringifyJs v) :: stringifyJsFields ps

end

/-! ### `JSON.parse` (fuel-indexed recursive-descent parser) -/

def skipWs (cs : List Char) : List Char :=
  cs.dropWhile (fun c => c = ' ' ∨ c = '\t' ∨ c = '\n' ∨ c = '\r')

def parseJsonString (cs : List Char) : Option (String × List Char) :=
  go cs []
where
  go : List Char → List Char → Option (String × List Char)
    | [], _ => none
    | c :: rest, acc =>
      if c = quoteChar then some (String.mk acc.reverse, rest)
      else if c = backslashChar then
        match rest with
        | [] => none
        | e :: rest' =>
          if e = quoteChar then go rest' (quoteChar :: acc)
          else if e = backslashChar then go rest' (backslashChar :: acc)
          else if e = '/' then go rest' ('/' :: acc)
          else if e = 'n' then go rest' ('\n' :: acc)
          else if e = 't' then go rest' ('\t' :: acc)
          else if e = 'r' then go rest' ('\r' :: acc)
          else none
      else go rest (c :: acc)

def parseJsonNumber (cs : List Char) : Option (Int × List Char) :=
  match cs with
  | '-' :: rest =>
    let ds := rest.takeWhile Char.isDigit
    if ds.isEmpty then none
    else
      let rest' := rest.drop ds.length
      if decodeFracOk rest' then some (-(Int.ofNat (digitsToNat ds)), rest') else none
  | l =>
    let ds := l.takeWhile Char.isDigit
    if ds.isEmpty then none
    else
      let rest' := l.drop ds.length
      if decodeFracOk rest' then some (Int.ofNat (digitsToNat ds), rest') else none
where
  /-- The modelled fragment has integer numbers only: a fractional or
  exponent tail makes the parse fail (such inputs do not occur in the
  behaviour the claims exercise). -/
  decodeFracOk (rest : List Char) : Bool :=
    match rest with
    | '.' :: _ => false
    | 'e' :: _ => false
    | 'E' :: _ => false
    | _ => true

mutual

def parseJsonValue : Nat → List Char → Option (Json × List Char)
  | 0, _ => none
  | fuel + 1, cs =>
    match skipWs cs with
    | [] => none
    | c :: rest =>
      if c = quoteChar then
        (parseJsonString rest).map (fun (s, r) => (Json.str s, r))
      else if c = braceL then
        parseJsonObj fuel (skipWs rest) []
      else if c = '[' then
        parseJsonArr fuel (skipWs rest) []
      else if c = 't' then
        match rest with
        | 'r' :: 'u' :: 'e' :: r => some (Json.bool true, r)
        | _ => none
      else if c = 'f' then
        match rest with
        | 'a' :: 'l' :: 's' :: 'e' :: r => some (Json.bool false, r)
        | _ => none
      else if c = 'n' then
        match rest with
        | 'u' :: 'l' :: 'l' :: r => some (Json.null, r)
        | _ => none
      else
        (parseJsonNumber (c :: rest)).map (fun (n, r) => (Json.num n, r))

def parseJsonObj : Nat → List Char → List (String × Json) → Option (Json × List Char)
  | 0, _, _ => none
  | fuel + 1, cs, acc =>
    match cs with
    | [] => none
    | c :: rest =>
      if c = braceR ∧ acc.isEmpty then some (Json.obj [], rest)
      else if c = quoteChar then
        match parseJsonString rest with
        | none => none
        | some (k, r1) =>
          match skipWs r1 with
          | ':' :: r2 =>
            match parseJsonValue fuel (skipWs r2) with
            | none => none
            | some (v, r3) =>
              match skipWs r3 with
              | ',' :: r4 => parseJsonObj fuel (skipWs r4) (acc ++ [(k, v)])
              | r4 =>
                match r4 with
                | c2 :: r5 => if c2 = braceR then some (Json.obj (acc ++ [(k, v)]), r5) else none
                | [] => none
          | _ => none
      else none

def parseJsonArr : Nat → List Char → List Json → Option (Json × List Char)
  | 0, _, _ => none
  | fuel + 1, cs, acc =>
    match cs with
    | [] => none
    | ']' :: rest =>
      if acc.isEmpty then some (Json.arr [], rest) else none
    | cs' =>
      match parseJsonValue fuel (skipWs cs') with
      | none => none
      | some (v, r1) =>
        match skipWs r1 with
        | ',' :: r2 => parseJsonArr fuel (skipWs r2) (acc ++ [v])
        | ']' :: r2 => some (Json.arr (acc ++ [v]), r2)
        | _ => none

end

/-- `JSON.parse(s)`: `none` models a thrown `SyntaxError`.  Requires the
whole input to be consumed. -/
def jsonParse (s : String) : Option Json :=
  match parseJsonValue (2 * s.length + 4) s.toList with
  | some (v, rest) => if (skipWs rest).isEmpty then some v else none
  | none => none

def aposChar : Char := Char.ofNat 39

/-- `lenientParse` (utils.ts): `JSON.parse`, then a second attempt with all
single quotes replaced by double quotes, then `null`. -/
def lenientParse (s : String) : Json :=
  match jsonParse s with
  | some v => v
  | none =>
    let fixed := String.mk (s.toList.map (fun c => if c = aposChar then quoteChar else c))
    match jsonParse fixed with
    | some v => v
    | none => Json.null

end DndSolo

namespace DndSolo

/-! ## Data model (types.ts) -/

/-- `InventoryItem`.  `Option` marks fields whose key can be absent on the
JS object (`none` = key absent / value `undefined`); this matters for the
spread-based merge, where only present keys overwrite. -/
structure Item where
  name : String
  type : String
  description : Option String
  mechanics : Option Json
  quantity : Int
  equipped : Option Bool

structure Attributes where
  str : Int
  dex : Int
  con : Int
  int : Int
  wis : Int
  cha : Int

structure DeathSaves where
  successes : Int
  failures : Int

structure HitDice where
  current : Int
  max : Int
  face : String

structure Feature where
  name : String
  description : String

structure SpellSlot where
  current : Int
  max : Int

/-- `Character`.  `cls` renders the source field `class` (a Lean keyword).
`ac` is `Option Int` because the armor-class computation can produce `NaN`
(`none`) on degenerate mechanics annotations. -/
structure Character where
  name : String
  race : String
  cls : String
  level : Int
  xp : Int
  hp : Int
  maxHp : Int
  ac : Option Int
  gold : Int
  attributes : Attributes
  inventory : List Item
  skills : List String
  savingThrows : List String
  features : List Feature
  conditions : List String
  hitDice : HitDice
  spellSlots : List (String × SpellSlot)
  deathSaves : DeathSaves

/-- `Partial<Attributes>` as produced by `normalizeAttributes`: each key is
present only if it was present on the raw payload. -/
structure AttrUpdate where
  str : Option Int
  dex : Option Int
  con : Option Int
  int : Option Int
  wis : Option Int
  cha : Option Int

/-- `CheckRequest`.  `attr` renders the source field `attribute` (a Lean
keyword). -/
structure CheckReq where
  attr : String
  difficulty : Int
  dice : String
  reason : String
  successRisk : String
  failRisk : String
  isAttack : Bool
  isSave : Bool
  damageDice : Option String

/-- The sanitized `Partial<Character>` built by the normalizer.  `none` means
the key is absent from the update.  For `ac`, `level` and `xp` the source can
set a present key to `undefined` (when `coerceNumber` without fallback
fails); that case is collapsed to `none` here — it is observably equivalent
for `ac` (which is unconditionally recomputed after the merge) and does not
occur in any behaviour the claims exercise for `level`/`xp`. -/
structure CharUpdate where
  name : Option String
  race : Option String
  cls : Option String
  hp : Option Int
  maxHp : Option Int
  ac : Option Int
  gold : Option Int
  level : Option Int
  xp : Option Int
  attributes : Option AttrUpdate
  inventory : Option (List Item)
  conditions : Option (List String)
  skills : Option (List String)
  savingThrows : Option (List String)
  features : Option (List Feature)
  hitDice : Option HitDice
  deathSaves : Option DeathSaves
  spellSlots : Option (List (String × SpellSlot))

/-- `Partial<WorldData>` as normalized: every key is present on the JS
object (possibly with value `undefined`), so the merge in the state machine
replaces the whole world record with these five fields. -/
structure WorldData where
  name : Option String
  genre : Option String
  description : Option String
  currencyLabel : Option String
  combatState : Option String

structure AIResponse where
  narrative : String
  options : List String
  isGameOver : Bool
  isLevelUp : Bool
  validationError : Option String
  characterUpdate : Option CharUpdate
  worldUpdate : Option WorldData
  check : Option CheckReq
  levelUpOptions : Option (List Feature)

/-! ## Data coercion & validation (utils.ts) -/

def coerceNumber (val : Json) (fallback : Option Int) : Option Int :=
  match val with
  | .undefined => fallback
  | .null => fallback
  | .num n => some n
  | .str s =>
    match parseFloatJs s with
    | none => fallback
    | some p => some p
  | _ => fallback

def coerceString (val : Json) (fallback : String) : String :=
  match val with
  | .undefined => fallback
  | .null => fallback
  | .str s => s
  | v => jsToString v

def normalizeItem (item : Json) : Except Unit Item := do
  let nameV ← jsGetE item "name"
  .ok
    { name := coerceString nameV "Unknown Item"
      type :=
        match jsGetT item "type" with
        | .str s => if ["weapon", "armor", "consumable", "misc", "ammo"].contains s then s else "misc"
        | _ => "misc"
      description :=
        let d := jsGetT item "description"
        if d.truthy then some (coerceString d "") else none
      mechanics := some (jsGetT item "mechanics")
      quantity :=
        match coerceNumber (jsGetT item "quantity") (some 1) with
        | some q => if q = 0 then 1 else q
        | none => 1
      equipped := some (jsGetT item "equipped").truthy }

def normalizeInventory (rawItems : Json) : Except Unit (List Item) :=
  match rawItems with
  | .arr items => items.mapM normalizeItem
  | _ => .ok []

def attrField (raw : Json) (k : String) : Option Int :=
  let v := jsGetT raw k
  if v.isUndefined then none else some ((coerceNumber v (some 10)).getD 10)

def normalizeAttributes (rawAttrs : Json) : Option AttrUpdate :=
  if ¬ rawAttrs.isObjectLike then none
  else some
    { str := attrField rawAttrs "str"
      dex := attrField rawAttrs "dex"
      con := attrField rawAttrs "con"
      int := attrField rawAttrs "int"
      wis := attrField rawAttrs "wis"
      cha := attrField rawAttrs "cha" }

def normalizeCheck (rawCheck : Json) : Option CheckReq :=
  if ¬ rawCheck.isObjectLike then none
  else some
    { attr := coerceString (jsGetT rawCheck "attribute") "dex"
      difficulty :=
        match coerceNumber (jsGetT rawCheck "difficulty") (some 10) with
        | some d => if d = 0 then 10 else d
        | none => 10
      dice := coerceString (jsGetT rawCheck "dice") "1d20"
      reason := coerceString (jsGetT rawCheck "reason") "Check"
      successRisk := coerceString (jsGetT rawCheck "successRisk") "Success"
      failRisk := coerceString (jsGetT rawCheck "failRisk") "Failure"
      isAttack := (jsGetT rawCheck "isAttack").truthy
      isSave := (jsGetT rawCheck "isSave").truthy
      damageDice :=
        let d := jsGetT rawCheck "damageDice"
        if d.truthy then some (coerceString d "") else none }

def normalizeFeature (f : Json) : Except Unit Feature :=
  match f with
  | .str s => .ok { name := s, description := "" }
  | _ => do
    let n ← jsGetE f "name"
    .ok { name := coerceString n "Unknown", description := coerceString (jsGetT f "description") "" }

def normalizeDeathSaves (v : Json) : DeathSaves :=
  { successes := (coerceNumber (jsGetT v "successes") (some 0)).getD 0
    failures := (coerceNumber (jsGetT v "failures") (some 0)).getD 0 }

def normalizeHitDice (v : Json) : HitDice :=
  { current := (coerceNumber (jsGetT v "current") (some 1)).getD 1
    max := (coerceNumber (jsGetT v "max") (some 1)).getD 1
    face := coerceString (jsGetT v "face") "1d8" }

def jsEntries : Json → List (String × Json)
  | .obj fs => fs
  | .arr xs => xs.enum.map (fun p => (toString p.1, p.2))
  | _ => []

def normalizeSpellSlots (v : Json) : List (String × SpellSlot) :=
  (jsEntries v).foldl
    (fun acc p =>
      if p.2.truthy ∧ p.2.isObjectLike then
        acc ++ [(p.1,
          { current := (coerceNumber (jsGetT p.2 "current") (some 0)).getD 0
            max := (coerceNumber (jsGetT p.2 "max") (some 0)).getD 0 })]
      else acc)
    []

def normalizeLevelUpOption (opt : Json) : Except Unit Feature := do
  let n ← jsGetE opt "name"
  .ok { name := coerceString n "", description := coerceString (jsGetT opt "description") "" }

/-- The ammunition stack synthesized by the "hard logic" ammo check.  Note
that it has no `equipped` and no `mechanics` key. -/
def defaultAmmoItem : Item :=
  { name := "Комплект боеприпасов"
    type := "ammo"
    description := some "Базовый боезапас, добавленный системой."
    mechanics := none
    quantity := 20
    equipped := none }

def isRangedName (n : String) : Bool :=
  let l := toLowerJs n
  strContains l "bow" || strContains l "лук" ||
  strContains l "gun" || strContains l "rifle" || strContains l "pistol" ||
  strContains l "пистолет" || strContains l "винтовка" ||
  strContains l "crossbow" || strContains l "арбалет"

def isAmmoLike (i : Item) : Bool :=
  i.type == "ammo" || strContains (toLowerJs i.name) "ammo" ||
  strContains (toLowerJs i.name) "патрон" || strContains (toLowerJs i.name) "стрел"

/-- Inventory normalization plus the ranged-weapon/ammo "hard logic". -/
def applyAmmoCheck (inv : List Item) : List Item :=
  if inv.any (fun i => isRangedName i.name) ∧ ¬ inv.any isAmmoLike then inv ++ [defaultAmmoItem]
  else inv

/-- Sanitization of `raw.characterUpdate` (step 2 of `normalizeAIResponse`).
`Except.error` models a thrown `TypeError` (property access on a `null` /
`undefined` entry of the `inventory` or `features` arrays). -/
def normalizeCharUpdate (c : Json) : Except Unit CharUpdate := do
  let inv ←
    if (jsGetT c "inventory").truthy then (normalizeInventory (jsGetT c "inventory")).map some
    else pure none
  let invWithAmmo := inv.map applyAmmoCheck
  let feats ←
    match jsGetT c "features" with
    | .arr fs => (fs.mapM normalizeFeature).map some
    | _ => pure none
  .ok
    { name := if ¬(jsGetT c "name").isUndefined then some (coerceString (jsGetT c "name") "") else none
      race := if ¬(jsGetT c "race").isUndefined then some (coerceString (jsGetT c "race") "") else none
      cls := if ¬(jsGetT c "class").isUndefined then some (coerceString (jsGetT c "class") "") else none
      hp :=
        if ¬(jsGetT c "hp").isUndefined then
          some (match coerceNumber (jsGetT c "hp") (some 1) with
                | some v => max 1 v
                | none => 1)
        else none
      maxHp :=
        if ¬(jsGetT c "maxHp").isUndefined then
          some (match coerceNumber (jsGetT c "maxHp") (some 1) with
                | some v => max 1 v
                | none => 1)
        else none
      ac := if ¬(jsGetT c "ac").isUndefined then coerceNumber (jsGetT c "ac") none else none
      gold := if ¬(jsGetT c "gold").isUndefined then coerceNumber (jsGetT c "gold") (some 0) else none
      level := if ¬(jsGetT c "level").isUndefined then coerceNumber (jsGetT c "level") none else none
      xp := if ¬(jsGetT c "xp").isUndefined then coerceNumber (jsGetT c "xp") none else none
      attributes := if (jsGetT c "attributes").truthy then normalizeAttributes (jsGetT c "attributes") else none
      inventory := invWithAmmo
      conditions :=
        match jsGetT c "conditions" with
        | .arr xs => some (xs.map (fun s => coerceString s ""))
        | _ => none
      skills :=
        match jsGetT c "skills" with
        | .arr xs => some (xs.map (fun s => coerceString s ""))
        | _ => none
      savingThrows :=
        match jsGetT c "savingThrows" with
        | .arr xs => some (xs.map (fun s => coerceString s ""))
        | _ => none
      features := feats
      hitDice := if (jsGetT c "hitDice").truthy then some (normalizeHitDice (jsGetT c "hitDice")) else none
      deathSaves := if (jsGetT c "deathSaves").truthy then some (normalizeDeathSaves (jsGetT c "deathSaves")) else none
      spellSlots := if (jsGetT c "spellSlots").isObjectLike then some (normalizeSpellSlots (jsGetT c "spellSlots")) else none }

def normalizeWorldUpdate (w : Json) : WorldData :=
  { name := (let v := jsGetT w "name"; if v.truthy then some (coerceString v "") else none)
    genre := (let v := jsGetT w "genre"; if v.truthy then some (coerceString v "") else none)
    description := (let v := jsGetT w "description"; if v.truthy then some (coerceString v "") else none)
    currencyLabel := (let v := jsGetT w "currencyLabel"; if v.truthy then some (coerceString v "") else none)
    combatState := (let v := jsGetT w "combatState"; if v.truthy then some (coerceString v "") else none) }

/-- The schema-validation layer (`normalizeAIResponse` in utils.ts).
`Except.error` models a thrown `TypeError` (only reachable through `null` /
`undefined` entries of the `inventory`, `features` or `levelUpOptions`
arrays inside an object payload). -/
def normalizeAIResponse (raw : Json) : Except Unit AIResponse :=
  if ¬ raw.isObjectLike then
    .ok
      { narrative := "Error: AI returned invalid data structure."
        options := ["Retry"]
        isGameOver := false
        isLevelUp := false
        validationError := none
        characterUpdate := none
        worldUpdate := none
        check := none
        levelUpOptions := none }
  else do
    let charUpd ←
      if (jsGetT raw "characterUpdate").isObjectLike then (normalizeCharUpdate (jsGetT raw "characterUpdate")).map some
      else pure none
    let lvlOpts ←
      match jsGetT raw "levelUpOptions" with
      | .arr xs => (xs.mapM normalizeLevelUpOption).map some
      | _ => pure none
    .ok
      { narrative := coerceString (jsGetT raw "narrative") "..."
        options :=
          match jsGetT raw "options" with
          | .arr xs => xs.map (fun o => coerceString o "")
          | _ => []
        isGameOver := (jsGetT raw "isGameOver").truthy
        isLevelUp := (jsGetT raw "isLevelUp").truthy
        validationError :=
          let v := jsGetT raw "validationError"
          if v.truthy then some (coerceString v "") else none
        characterUpdate := charUpd
        worldUpdate :=
          if (jsGetT raw "worldUpdate").isObjectLike then some (normalizeWorldUpdate (jsGetT raw "worldUpdate"))
          else none
        check := if (jsGetT raw "check").truthy then normalizeCheck (jsGetT raw "check") else none
        levelUpOptions := lvlOpts }

end DndSolo

namespace DndSolo

/-! ## Dice & game logic (utils.ts) -/

/-- `diceString.toLowerCase().replace(/\s/g, '')`. -/
def cleanDice (s : String) : String :=
  String.mk ((toLowerJs s).toList.filter (fun c => ¬ c.isWhitespace))

def diceParts (s : String) : List String := splitCharJs (cleanDice s) '+'


/-- `parts.length > 1 ? parseInt(parts[1]) : 0` — `none` is `NaN`. -/
def diceBonus (s : String) : Option Int :=
  let parts := diceParts s
  if parts.length > 1 then parseIntJs (parts.getD 1 "") else some 0

/-- First component of `dicePart.split('d').map(Number)`; outer `none` is
JS `undefined` (missing element), inner `none` is `NaN`. -/
def diceCount (s : String) : Option (Option Int) :=
  (splitCharJs ((diceParts s).headD "") 'd').get? 0 |>.map numberJs

def diceFaces (s : String) : Option (Option Int) :=
  (splitCharJs ((diceParts s).headD "") 'd').get? 1 |>.map numberJs

/-- Truthiness of a JS number-or-undefined (`!count` / `!faces` guards). -/
def jsNumTruthy : Option (Option Int) → Bool
  | some (some v) => v != 0
  | _ => false

/-- The roll loop: `for (i = 0; i < count; i++) total += floor(random()*faces)+1`. -/
def sumRolls (rand : Nat → Nat → Nat) (count : Nat) (faces : Nat) : Int :=
  (List.range count).foldl (fun acc i => acc + (Int.ofNat (rand i faces) + 1)) 0

/-- `parseAndRoll` (utils.ts).  `rand i m` models the `i`-th draw of
`Math.floor(Math.random() * m)` inside this call; the `d20` fallback uses
draw index 0 with bound 20.  `none` models a `NaN` result. -/
def parseAndRoll (diceString : String) (rand : Nat → Nat → Nat) : Option Int :=
  if diceString = "" then some (Int.ofNat (rand 0 20) + 1)
  else
    let count := diceCount diceString
    let faces := diceFaces diceString
    if ¬ jsNumTruthy count ∨ ¬ jsNumTruthy faces then some (Int.ofNat (rand 0 20) + 1)
    else
      let c := (count.getD none).getD 0
      let f := (faces.getD none).getD 0
      let total := sumRolls rand c.toNat f.toNat
      match diceBonus diceString with
      | none => none
      | some k => some (total + k)

def getModifier (score : Int) : Int := Int.fdiv (score - 10) 2

def getProficiencyBonus (level : Int) : Int := Int.fdiv (level - 1) 4 + 2

/-- The six canonical ability keys. -/
inductive AKey where
  | str | dex | con | int | wis | cha
deriving DecidableEq, Repr

def akeyStr : AKey → String
  | .str => "str"
  | .dex => "dex"
  | .con => "con"
  | .int => "int"
  | .wis => "wis"
  | .cha => "cha"

def attrValueOf (a : Attributes) : AKey → Int
  | .str => a.str
  | .dex => a.dex
  | .con => a.con
  | .int => a.int
  | .wis => a.wis
  | .cha => a.cha

/-- `SKILL_MAP` (constants.ts), in insertion order. -/
def SKILL_MAP : List (String × AKey) :=
  [("athletics", .str), ("атлетика", .str),
   ("acrobatics", .dex), ("акробатика", .dex), ("stealth", .dex), ("скрытность", .dex),
   ("sleight of hand", .dex), ("ловкость рук", .dex),
   ("investigation", .int), ("анализ", .int), ("расследование", .int), ("arcana", .int),
   ("магия", .int), ("history", .int), ("история", .int), ("nature", .int), ("природа", .int),
   ("religion", .int), ("религия", .int),
   ("insight", .wis), ("проницательность", .wis), ("perception", .wis), ("внимательность", .wis),
   ("medicine", .wis), ("медицина", .wis), ("survival", .wis), ("выживание", .wis),
   ("animal handling", .wis), ("уход за животными", .wis),
   ("deception", .cha), ("обман", .cha), ("intimidation", .cha), ("запугивание", .cha),
   ("performance", .cha), ("выступление", .cha), ("persuasion", .cha), ("убеждение", .cha)]

/-- `resolveAttributeFromCheck` (utils.ts).  The normalized check always
carries a string, so the non-string early return reduces to the empty
string being falsy. -/
def resolveAttributeFromCheck (checkName : String) : AKey :=
  if checkName = "" then .dex
  else
    let l := trimJs (toLowerJs checkName)
    if l = "str" then .str
    else if l = "dex" then .dex
    else if l = "con" then .con
    else if l = "int" then .int
    else if l = "wis" then .wis
    else if l = "cha" then .cha
    else if strContains l "сила" then .str
    else if strContains l "ловкость" then .dex
    else if strContains l "тело" ∨ strContains l "вынос" then .con
    else if strContains l "интеллект" then .int
    else if strContains l "мудрость" then .wis
    else if strContains l "харизма" then .cha
    else
      match SKILL_MAP.find? (fun p => strContains l p.1) with
      | some p => p.2
      | none => if strContains l "attack" ∨ strContains l "атака" then .dex else .dex

def isSavingThrow (checkName : String) : Bool :=
  if checkName = "" then false
  else
    let l := toLowerJs checkName
    strContains l "save" || strContains l "спас" || strContains l "saving"

/-! ## Rules engine: armor class (gameRules.ts) -/

/-- `lenientParse(mechStr) || {}` where `mechStr` is
`typeof mechanics === 'string' ? mechanics : JSON.stringify(mechanics || {})`;
`it.mechanics = none` is an absent key (`undefined`). -/
def itemMechStats (it : Item) : Json :=
  let mech := it.mechanics.getD Json.undefined
  let mechStr :=
    match mech with
    | .str s => s
    | m => stringifyJs (if m.truthy then m else Json.obj [])
  let p := lenientParse mechStr
  if p.truthy then p else Json.obj []

/-- Shield detection inside the AC computation: by name or by parsed
mechanics `type === 'shield'`. -/
def isShieldStats (it : Item) (stats : Json) : Bool :=
  strContains (toLowerJs it.name) "shield" || strContains (toLowerJs it.name) "щит" ||
  jsStrEq (jsGetT stats "type") "shield"

/-- `parseInt(String(stats.ac || stats.bonus || 2)) || 2`. -/
def shieldBonusVal (stats : Json) : Int :=
  let bonus :=
    let a := jsGetT stats "ac"
    if a.truthy then a
    else
      let b := jsGetT stats "bonus"
      if b.truthy then b else Json.num 2
  match parseIntJs (jsToString bonus) with
  | some v => if v = 0 then 2 else v
  | none => 2

/-- `(stats.type || "").toLowerCase()`.  A truthy non-string `stats.type`
would throw in JS (outside every behaviour the claims exercise); it is
rendered as `""` here. -/
def statsTypeLower (stats : Json) : String :=
  match (let t := jsGetT stats "type"; if t.truthy then t else Json.str "") with
  | .str s => toLowerJs s
  | _ => ""

/-- The mutable accumulator of the `forEach` in `calculateArmorClass`. -/
structure AcAcc where
  baseAc : Option Int
  shieldBonus : Int
  hasArmor : Bool

def jsAddNum : Option Int → Option Int → Option Int
  | some a, some b => some (a + b)
  | _, _ => none

/-- One iteration of the `forEach` body of `calculateArmorClass`. -/
def acStep (dexMod : Int) (acc : AcAcc) (item : Item) : AcAcc :=
  if item.equipped ≠ some true then acc
  else
    let stats := itemMechStats item
    if item.type = "armor" then
      if isShieldStats item stats then
        { acc with shieldBonus := acc.shieldBonus + shieldBonusVal stats }
      else if (jsGetT stats "ac").truthy then
        let armorVal := parseIntJs (jsToString (jsGetT stats "ac"))
        let t := statsTypeLower stats
        let newBase : Option Int :=
          if strContains t "heavy" ∨ strContains t "тяжел" then armorVal
          else if strContains t "medium" ∨ strContains t "средн" then armorVal.map (fun v => v + min 2 dexMod)
          else armorVal.map (fun v => v + dexMod)
        { baseAc := newBase, shieldBonus := acc.shieldBonus, hasArmor := true }
      else acc
    else acc

/-- `calculateArmorClass` (gameRules.ts).  `none` models a `NaN` result
(declared armor AC that `parseInt` cannot read). -/
def calculateArmorClass (char : Character) : Option Int :=
  let dexMod := getModifier char.attributes.dex
  let res := char.inventory.foldl (acStep dexMod) { baseAc := some (10 + dexMod), shieldBonus := 0, hasArmor := false }
  jsAddNum res.baseAc (some res.shieldBonus)

end DndSolo

namespace DndSolo

/-! ## Session state machine (useGameEngine.ts, constants.ts) -/

inductive GamePhase where
  | worldCreation | characterCreation | intro | gameplay | levelup | gameover
deriving DecidableEq, Repr

/-- `LogEntry`.  The structured roll metadata (`meta`) is presentation data
for the UI and `handleDamageRoll`; it is not modelled. -/
structure LogEntry where
  id : String
  role : String
  text : String
  timestamp : Nat

structure GameState where
  phase : GamePhase
  world : Option WorldData
  character : Option Character
  history : List LogEntry
  currentOptions : List String
  pendingCheck : Option CheckReq
  levelUpChoices : Option (List Feature)

/-- `DUMMY_CHAR` (constants.ts). -/
def DUMMY_CHAR : Character :=
  { name := "Создание...", race := "-", cls := "-", level := 1, xp := 0, hp := 10, maxHp := 10
    ac := some 10, gold := 0
    attributes := { str := 10, dex := 10, con := 10, int := 10, wis := 10, cha := 10 }
    inventory := [], skills := [], features := [], conditions := []
    savingThrows := [], hitDice := { current := 1, max := 1, face := "1d8" }, spellSlots := []
    deathSaves := { successes := 0, failures := 0 } }

/-- `INITIAL_GAME_STATE` (constants.ts). -/
def INITIAL_GAME_STATE : GameState :=
  { phase := .worldCreation, world := none, character := none, history := []
    currentOptions := [], pendingCheck := none, levelUpChoices := none }

/-- The spread-merge of one matched inventory item:
`{ ...existing, ...newItem, equipped: newItem.equipped !== undefined ? newItem.equipped : existing.equipped }`.
Every key except `mechanics` and `equipped` is present on a normalized
incoming item, so those fields are plain overwrites. -/
def mergeItem (old newItem : Item) : Item :=
  { name := newItem.name
    type := newItem.type
    description := newItem.description
    mechanics :=
      match newItem.mechanics with
      | some m => some m
      | none => old.mechanics
    quantity := newItem.quantity
    equipped :=
      match newItem.equipped with
      | some b => some b
      | none => old.equipped }

/-- The inventory merge loop of `callAI` (case-insensitive trimmed name
match), followed by the zero-quantity prune. -/
def mergeInventory (oldInv : List Item) (updInv : List Item) : List Item :=
  let merged := updInv.foldl
    (fun acc newItem =>
      if newItem.name = "" then acc
      else
        match acc.findIdx? (fun old => toLowerJs (trimJs old.name) == toLowerJs (trimJs newItem.name)) with
        | some i => acc.set i (mergeItem (acc.getD i newItem) newItem)
        | none => acc ++ [newItem])
    oldInv
  merged.filter (fun item => item.quantity > 0)

/-- `{ ...oldChar.attributes, ...(update.attributes || {}) }`. -/
def mergeAttributes (old : Attributes) (upd : Option AttrUpdate) : Attributes :=
  match upd with
  | none => old
  | some u =>
    { str := u.str.getD old.str
      dex := u.dex.getD old.dex
      con := u.con.getD old.con
      int := u.int.getD old.int
      wis := u.wis.getD old.wis
      cha := u.cha.getD old.cha }

/-- The character merge of `callAI`: spread `{ ...oldChar, ...update }` with
the explicit `attributes` / `gold` / `inventory` / `deathSaves` overrides,
followed by the unconditional AC recomputation. -/
def mergeCharacter (oldChar : Character) (update : CharUpdate) : Character :=
  let merged : Character :=
    { name := update.name.getD oldChar.name
      race := update.race.getD oldChar.race
      cls := update.cls.getD oldChar.cls
      level := update.level.getD oldChar.level
      xp := update.xp.getD oldChar.xp
      hp := update.hp.getD oldChar.hp
      maxHp := update.maxHp.getD oldChar.maxHp
      ac :=
        match update.ac with
        | some v => some v
        | none => oldChar.ac
      gold := update.gold.getD oldChar.gold
      attributes := mergeAttributes oldChar.attributes update.attributes
      inventory :=
        match update.inventory with
        | some upd => mergeInventory oldChar.inventory upd
        | none => oldChar.inventory
      skills := update.skills.getD oldChar.skills
      savingThrows := update.savingThrows.getD oldChar.savingThrows
      features := update.features.getD oldChar.features
      conditions := update.conditions.getD oldChar.conditions
      hitDice := update.hitDice.getD oldChar.hitDice
      spellSlots := update.spellSlots.getD oldChar.spellSlots
      deathSaves := update.deathSaves.getD oldChar.deathSaves }
  { merged with ac := calculateArmorClass merged }

def damageLogEntry (dmg : Int) (now : Nat) : LogEntry :=
  { id := toString now ++ "_dmg", role := "system"
    text := "💔 ПОЛУЧЕН УРОН: -" ++ toString dmg ++ " HP", timestamp := now }

/-- The post-normalization turn application of `callAI` (lines 231–335 of
useGameEngine.ts): world merge, character merge with damage-log entry and
AC recomputation, phase management, narrative history push, pending-check /
options update.  `now` stands for `Date.now()`.  (The one-shot automatic
intro follow-up call after character creation is orchestration around this
state transition and is not part of it.) -/
def applyAIResponse (st : GameState) (resp : AIResponse) (now : Nat) : GameState :=
  let s1 : GameState :=
    match resp.worldUpdate with
    | some w => { st with world := some w }
    | none => st
  let s2 : GameState :=
    match resp.characterUpdate with
    | none => s1
    | some update =>
      let oldChar := s1.character.getD DUMMY_CHAR
      let hist1 :=
        match update.hp with
        | some newHp =>
          if newHp < oldChar.hp then s1.history ++ [damageLogEntry (oldChar.hp - newHp) now]
          else s1.history
        | none => s1.history
      { s1 with history := hist1, character := some (mergeCharacter oldChar update) }
  let ph1 :=
    if st.phase = .worldCreation then GamePhase.characterCreation
    else if st.phase = .characterCreation then .intro
    else if st.phase = .intro then .gameplay
    else s2.phase
  let ph2 := if resp.isLevelUp then GamePhase.levelup else ph1
  let ph3 := if resp.isGameOver then GamePhase.gameover else ph2
  let ph4 := if st.phase = .levelup ∧ ¬ resp.isLevelUp then GamePhase.gameplay else ph3
  let ph5 :=
    match s2.character with
    | some c => if c.level = 1 ∧ c.xp ≥ 300 then GamePhase.levelup else ph4
    | none => ph4
  let narrativeText :=
    if resp.narrative ≠ "" then resp.narrative
    else if st.phase = .intro then "Мир обретает форму..." else "..."
  let modelEntry : LogEntry := { id := toString now, role := "model", text := narrativeText, timestamp := now }
  let s3 : GameState := { s2 with phase := ph5, history := s2.history ++ [modelEntry] }
  let s4 : GameState :=
    match resp.check with
    | some chk => { s3 with pendingCheck := some chk, currentOptions := [] }
    | none =>
      { s3 with
        pendingCheck := none
        currentOptions :=
          if resp.options.isEmpty ∧ s3.phase = .gameplay then
            ["Продолжить...", "Осмотреться", "Задать вопрос"]
          else resp.options }
  match resp.levelUpOptions with
  | some l => { s4 with levelUpChoices := some l }
  | none => s4

/-- The caller-side guard on the normalized response (lines 216–222):
`if (jsonResponse.validationError) { setError(...); return; }`.
`none` means the turn is aborted with the error surfaced and no state
mutation; `some` is the applied turn. -/
def processNormalized (st : GameState) (resp : AIResponse) (now : Nat) : Option GameState :=
  if (resp.validationError.getD "") ≠ "" then none
  else some (applyAIResponse st resp now)

/-! ## Equip toggling (useGameEngine.ts `handleToggleEquip`) -/

def isShieldName (n : String) : Bool :=
  strContains (toLowerJs n) "shield" || strContains (toLowerJs n) "щит"

/-- `handleToggleEquip`.  `none` models the `TypeError` on an out-of-range
index (`newInventory[itemIndex]` is `undefined`).  Note the source mutates
the shared item objects: when an armor (non-shield) item is being equipped,
the clearing `forEach` also clears the target itself before the toggle
flips it back on. -/
def handleToggleEquip (char : Character) (itemIndex : Nat) : Option Character :=
  match char.inventory.get? itemIndex with
  | none => none
  | some targetItem =>
    let inv1 :=
      if targetItem.type = "armor" ∧ ¬ (targetItem.equipped = some true) ∧ ¬ isShieldName targetItem.name then
        char.inventory.map
          (fun i => if i.type = "armor" ∧ ¬ isShieldName i.name then { i with equipped := some false } else i)
      else char.inventory
    let target1 := inv1.getD itemIndex targetItem
    let target2 := { target1 with equipped := some (¬ (target1.equipped = some true)) }
    let inv2 := inv1.set itemIndex target2
    let tempChar := { char with inventory := inv2 }
    some { tempChar with ac := calculateArmorClass tempChar }

/-! ## Roll resolution (useGameEngine.ts `handleRoll`) -/

inductive RollType where
  | normal | adv | dis
deriving DecidableEq, Repr

def jsMaxNum : Option Int → Option Int → Option Int
  | some a, some b => some (max a b)
  | _, _ => none

def jsMinNum : Option Int → Option Int → Option Int
  | some a, some b => some (min a b)
  | _, _ => none

/-- `totalRoll >= dc` with `NaN` comparing false. -/
def jsGeNum (o : Option Int) (d : Int) : Bool :=
  match o with
  | some v => v ≥ d
  | none => false

def isDeathSaveCheck (check : CheckReq) : Bool :=
  strContains (toLowerJs check.reason) "death" || strContains (toLowerJs check.reason) "смерть"

/-- The modifier computation of `handleRoll` (ability modifier plus
proficiency), which is skipped entirely for death saves. -/
def rollModifier (st : GameState) (check : CheckReq) : Int :=
  let isDeathSave := isDeathSaveCheck check
  let attrKey := resolveAttributeFromCheck check.attr
  let rawAttr := (st.character.map (fun c => attrValueOf c.attributes attrKey)).getD 0
  let attrValue := if rawAttr ≠ 0 then rawAttr else 10
  if isDeathSave then 0
  else
    let base := getModifier attrValue
    let isSave := check.isSave ∨ isSavingThrow check.reason ∨ isSavingThrow check.attr
    let isProficient :=
      if isSave then
        (st.character.map (fun c => c.savingThrows.any (fun s => strContains (toLowerJs s) (akeyStr attrKey))))|>.getD false
      else
        (st.character.map (fun c =>
          c.skills.any (fun skillName =>
            let s := toLowerJs skillName
            strContains (toLowerJs check.reason) s ∨ strContains (toLowerJs check.attr) s)))|>.getD false
    if isProficient then
      let lvl := (st.character.map (fun c => c.level)).getD 1
      base + getProficiencyBonus (if lvl ≠ 0 then lvl else 1)
    else base

/-- The death-save state update of `handleRoll` (applied only when the check
is a death save and the character and its counters exist). -/
def applyDeathSave (c : Character) (success : Bool) (finalRoll : Option Int) : Character :=
  if success then
    if finalRoll = some 20 then
      { c with hp := 1, deathSaves := { successes := 0, failures := 0 } }
    else
      { c with deathSaves := { c.deathSaves with successes := min 3 (c.deathSaves.successes + 1) } }
  else
    let failCount : Int := if finalRoll = some 1 then 2 else 1
    { c with deathSaves := { c.deathSaves with failures := min 3 (c.deathSaves.failures + failCount) } }

/-- The synchronous part of `handleRoll` after the animation timeout: dice
drawing, modifier application, death-save enforcement, history append,
pending-check clearing and phase update.  Returns the new state and whether
a follow-up narrative call is issued (`!isDead && (!check.isAttack || !success)`).
`rand1`/`rand2` are the draw streams of the two `parseAndRoll` calls;
`none` models the early return when no pending check exists. -/
def handleRollResolve (st : GameState) (rollType : RollType)
    (rand1 rand2 : Nat → Nat → Nat) (now : Nat) : Option (GameState × Bool) :=
  match st.pendingCheck with
  | none => none
  | some check =>
    let diceConfig := if check.dice ≠ "" then check.dice else "1d20"
    let dc := if check.difficulty ≠ 0 then check.difficulty else 10
    let isDeathSave := isDeathSaveCheck check
    let mod := rollModifier st check
    let r1 := parseAndRoll diceConfig rand1
    let r2 := parseAndRoll diceConfig rand2
    let finalRoll :=
      match rollType with
      | .normal => r1
      | .adv => jsMaxNum r1 r2
      | .dis => jsMinNum r1 r2
    let totalRoll := jsAddNum finalRoll (some mod)
    let success := jsGeNum totalRoll dc
    let updatedChar : Option Character :=
      match st.character with
      | some c => some (if isDeathSave then applyDeathSave c success finalRoll else c)
      | none => none
    let isDead : Bool :=
      match updatedChar with
      | some c => isDeathSave && decide (c.deathSaves.failures ≥ 3)
      | none => false
    let rollEntry : LogEntry :=
      { id := toString now, role := "roll_result"
        text := if success then "УСПЕХ" else "ПРОВАЛ", timestamp := now }
    let hist1 := st.history ++ [rollEntry]
    let hist2 :=
      if isDead then
        hist1 ++ [{ id := toString now ++ "_death", role := "system"
                    text := "💀 ПЕРСОНАЖ ПОГИБ. ИСТОРИЯ ЗАВЕРШЕНА.", timestamp := now }]
      else hist1
    let stateAfterRoll : GameState :=
      { st with
        history := hist2
        pendingCheck := none
        character := updatedChar
        phase := if isDead then .gameover else st.phase }
    let callsAI : Bool := !isDead && (!check.isAttack || !success)
    some (stateAfterRoll, callsAI)

/-! ## Request orchestrator: bounded retry (useGameEngine.ts lines 166–195) -/

/-- `(e.message || JSON.stringify(e)).toLowerCase()` matched against the
rate-limit vocabulary. -/
def isQuotaMsg (msg : String) : Bool :=
  let m := toLowerJs msg
  strContains m "429" || strContains m "resource_exhausted" || strContains m "quota"

def maxRetries : Nat := 3

/-- The retry loop.  `outcome i` is the result of the `i`-th service call
attempt; the result carries the final outcome, the number of attempts made,
and the list of backoff delays slept (ms), in order.  The fuel equals the
remaining loop iterations (`attempt < maxRetries`). -/
def retryGo (outcome : Nat → Except String String) :
    Nat → Nat → List Nat → Except String String × Nat × List Nat
  | attempt, 0, delays => (Except.error "No response from AI", attempt, delays)
  | attempt, fuel + 1, delays =>
    match outcome attempt with
    | .ok r => (.ok r, attempt + 1, delays)
    | .error e =>
      if isQuotaMsg e ∧ attempt < maxRetries - 1 then
        let a := attempt + 1
        retryGo outcome a fuel (delays ++ [2000 * 2 ^ a])
      else (.error e, attempt + 1, delays)

def callWithRetry (outcome : Nat → Except String String) : Except String String × Nat × List Nat :=
  retryGo outcome 0 maxRetries []

end DndSolo

namespace DndSolo

/-! ## Theorems -/

/-! ### C9 — retry orchestration -/

lemma retryGo_attempts_le (outcome : Nat → Except String String) :
    ∀ fuel attempt delays, (retryGo outcome attempt fuel delays).2.1 ≤ attempt + fuel := by
  intro fuel
  induction fuel with
  | zero => intro attempt delays; simp [retryGo]
  | succ n ih =>
    intro attempt delays
    simp only [retryGo]
    cases outcome attempt with
    | ok r => simp
    | error e =>
      by_cases h : isQuotaMsg e ∧ attempt < maxRetries - 1
      · simp only [if_pos h]
        calc (retryGo outcome (attempt + 1) n (delays ++ [2000 * 2 ^ (attempt + 1)])).2.1
            ≤ (attempt + 1) + n := ih (attempt + 1) _
          _ = attempt + (n + 1) := by omega
      · simp only [if_neg h]; omega

/-- C9 (corrected): every narrative-service call is attempted at most 3
times; a retry happens only when the first failure is rate-limit-class; a
non-rate-limit failure propagates immediately after a single attempt with no
backoff; and when every attempt fails with a rate-limit-class error the two
backoff delays slept are 4000 ms and 8000 ms (the source computes
`2000 * 2^attempt` *after* incrementing `attempt`, so the first delay is 4
seconds, not 2 as the claim states). -/
theorem c9_retry_policy :
    (∀ outcome : Nat → Except String String, (callWithRetry outcome).2.1 ≤ 3)
    ∧ (∀ (outcome : Nat → Except String String) (e : String),
        outcome 0 = .error e → isQuotaMsg e = false → callWithRetry outcome = (.error e, 1, []))
    ∧ (∀ outcome : Nat → Except String String,
        (∀ i, i < 3 → ∃ e, outcome i = .error e ∧ isQuotaMsg e = true) →
        (callWithRetry outcome).2.2 = [4000, 8000] ∧ (callWithRetry outcome).2.1 = 3)
    ∧ (∀ outcome : Nat → Except String String,
        2 ≤ (callWithRetry outcome).2.1 → ∃ e, outcome 0 = .error e ∧ isQuotaMsg e = true) := by
  refine ⟨?_, ?_, ?_, ?_⟩
  · intro outcome
    have h := retryGo_attempts_le outcome maxRetries 0 []
    simpa [callWithRetry, maxRetries] using h
  · intro outcome e h0 hq
    simp [callWithRetry, maxRetries, retryGo, h0, hq]
  · intro outcome h
    obtain ⟨e0, he0, hq0⟩ := h 0 (by omega)
    obtain ⟨e1, he1, hq1⟩ := h 1 (by omega)
    obtain ⟨e2, he2, hq2⟩ := h 2 (by omega)
    simp [callWithRetry, maxRetries, retryGo, he0, hq0, he1, hq1, he2, hq2]
  · intro outcome h
    cases h0 : outcome 0 with
    | ok r => exfalso; simp [callWithRetry, maxRetries, retryGo, h0] at h
    | error e =>
      refine ⟨e, rfl, ?_⟩
      by_contra hq
      simp only [Bool.not_eq_true] at hq
      simp [callWithRetry, maxRetries, retryGo, h0, hq] at h

/-- C9 witness / instantiation: a persistent rate-limit failure is retried
twice with delays 4000 ms then 8000 ms and gives up after 3 attempts; a
single non-rate-limit failure is not retried. -/
theorem c9_retry_policy_witness :
    (callWithRetry (fun _ => .error "http 429")).2.1 ≤ 3
    ∧ callWithRetry (fun _ => .error "bad request 400") = (.error "bad request 400", 1, [])
    ∧ (callWithRetry (fun _ => .error "http 429")).2.2 = [4000, 8000] := by
  refine ⟨c9_retry_policy.1 _, c9_retry_policy.2.1 _ _ rfl (by decide), ?_⟩
  exact (c9_retry_policy.2.2.1 (fun _ => .error "http 429")
    (fun i _ => ⟨"http 429", rfl, by decide⟩)).1

/-- C9 counterexample to the claim as stated: with every attempt failing
rate-limited, the backoff delay before the first retry is 4000 ms, not the
claimed 2000 ms. -/
theorem c9_first_backoff_is_4s :
    callWithRetry (fun _ => .error "429") = (.error "429", 3, [4000, 8000])
    ∧ (4000 : Nat) ≠ 2000 := by
  constructor
  · rfl
  · decide

end DndSolo

namespace DndSolo

/-! ### C8 — dice expression rolling -/

lemma sumRolls_succ (rand : Nat → Nat → Nat) (n faces : Nat) :
    sumRolls rand (n + 1) faces = sumRolls rand n faces + (Int.ofNat (rand n faces) + 1) := by
  simp [sumRolls, List.range_succ]

lemma sumRolls_bounds (rand : Nat → Nat → Nat) (faces : Nat) (h : ∀ i, rand i faces < faces) :
    ∀ count : Nat, (count : Int) ≤ sumRolls rand count faces
      ∧ sumRolls rand count faces ≤ (count : Int) * faces := by
  intro count
  induction count with
  | zero => simp [sumRolls]
  | succ n ih =>
    rw [sumRolls_succ]
    have hb := h n
    have hof : (Int.ofNat (rand n faces)) = ((rand n faces : Nat) : Int) := rfl
    rw [hof]
    constructor
    · push_cast
      omega
    · push_cast
      have hsplit : ((n : Int) + 1) * (faces : Int) = (n : Int) * (faces : Int) + (faces : Int) := by ring
      rw [hsplit]
      omega

/-- C8 (corrected): on a well-formed dice expression — one whose cleaned
form splits into a dice part with truthy integer count `n` and faces `f`
and a bonus suffix parsing to `k` — the result lies in `[n + k, n*f + k]`
for every valid sequence of draws; and whenever the dice part itself is not
well-formed (count or faces missing/not truthy, including the empty
string), the function falls back to a single d20 roll, a value in
`[1, 20]`.  (The claim's further assertion that the result is *always* a
non-negative integer fails: a well-formed dice part with a malformed `+`
suffix yields `NaN` — see the counterexample.) -/
theorem c8_roll_expression :
    (∀ (s : String) (rand : Nat → Nat → Nat) (n f k : Int),
      diceCount s = some (some n) → diceFaces s = some (some f) → diceBonus s = some k →
      1 ≤ n → 1 ≤ f → 1 ≤ k → (∀ i, rand i f.toNat < f.toNat) →
      ∃ t, parseAndRoll s rand = some t ∧ n + k ≤ t ∧ t ≤ n * f + k)
    ∧ (∀ (s : String) (rand : Nat → Nat → Nat),
      (jsNumTruthy (diceCount s) = false ∨ jsNumTruthy (diceFaces s) = false) →
      parseAndRoll s rand = some ((rand 0 20 : Int) + 1)
      ∧ (rand 0 20 < 20 → 1 ≤ (rand 0 20 : Int) + 1 ∧ (rand 0 20 : Int) + 1 ≤ 20)) := by
  constructor
  · intro s rand n f k hc hf hk hn1 hf1 hk1 hrand
    by_cases hs : s = ""
    · exfalso
      have h0 : diceCount "" = some (some 0) := rfl
      rw [hs, h0] at hc
      simp at hc
      omega
    · have hbounds := sumRolls_bounds rand f.toNat hrand n.toNat
      have hnn : ((n.toNat : Int)) = n := Int.toNat_of_nonneg (by omega)
      have hfn : ((f.toNat : Int)) = f := Int.toNat_of_nonneg (by omega)
      rw [hnn] at hbounds
      rw [hfn] at hbounds
      have hnz : (n != 0) = true := by simp; omega
      have hfz : (f != 0) = true := by simp; omega
      refine ⟨sumRolls rand n.toNat f.toNat + k, ?_, by omega, by omega⟩
      simp [parseAndRoll, if_neg hs, hc, hf, hk, jsNumTruthy, hnz, hfz]
  · intro s rand h
    have hcond : (¬ jsNumTruthy (diceCount s) = true ∨ ¬ jsNumTruthy (diceFaces s) = true) := by
      rcases h with h | h
      · exact Or.inl (by simp [h])
      · exact Or.inr (by simp [h])
    constructor
    · by_cases hs : s = ""
      · subst hs; rfl
      · simp only [parseAndRoll, if_neg hs, if_pos hcond]
        rfl
    · intro h20
      constructor <;> omega

/-- C8 witness: `2d6+3` with all draws `0` gives a value in `[5, 15]`, and
the malformed expression `potato` falls back to the d20 draw. -/
theorem c8_roll_expression_witness :
    (∃ t, parseAndRoll "2d6+3" (fun _ _ => 0) = some t ∧ (2 : Int) + 3 ≤ t ∧ t ≤ 2 * 6 + 3)
    ∧ parseAndRoll "potato" (fun _ _ => 7) = some ((7 : Int) + 1) := by
  constructor
  · exact c8_roll_expression.1 "2d6+3" (fun _ _ => 0) 2 6 3 rfl rfl rfl (by norm_num)
      (by norm_num) (by norm_num) (fun i => by show (0 : Nat) < Int.toNat 6; decide)
  · exact (c8_roll_expression.2 "potato" (fun _ _ => 7) (Or.inr rfl)).1

theorem c8_nan_on_malformed_bonus :
    parseAndRoll "1d4+x" (fun _ _ => 0) = none
    ∧ diceCount "1d4+x" = some (some 1) ∧ diceFaces "1d4+x" = some (some 4) := by
  exact ⟨rfl, rfl, rfl⟩

end DndSolo

namespace DndSolo

/-! ### C2 / C6 — armor-class computation -/

lemma foldl_inert {α β : Type} (f : β → α → β) :
    ∀ (l : List α) (b : β), (∀ a ∈ l, ∀ x, f x a = x) → l.foldl f b = b := by
  intro l
  induction l with
  | nil => intro b _; rfl
  | cons a t ih =>
    intro b h
    rw [List.foldl_cons, h a (by simp), ih b (fun x hx y => h x (by simp [hx]) y)]

lemma acStep_shield (d : Int) (acc : AcAcc) (it : Item)
    (he : it.equipped = some true) (ht : it.type = "armor")
    (hsh : isShieldStats it (itemMechStats it) = true) :
    acStep d acc it = { acc with shieldBonus := acc.shieldBonus + shieldBonusVal (itemMechStats it) } := by
  unfold acStep
  simp [he, ht, hsh]

lemma acStep_inert_notArmor (d : Int) (it : Item)
    (h : ¬(it.equipped = some true ∧ it.type = "armor")) :
    ∀ acc, acStep d acc it = acc := by
  intro acc
  unfold acStep
  by_cases he : it.equipped = some true
  · have ht : ¬ it.type = "armor" := fun hh => h ⟨he, hh⟩
    simp [he, ht]
  · simp [he]

lemma itemMechStats_of_unparseable (it : Item) (s : String)
    (hm : it.mechanics = some (Json.str s)) (hp : lenientParse s = Json.null) :
    itemMechStats it = Json.obj [] := by
  simp [itemMechStats, hm, hp, Json.truthy]

lemma acStep_inert_unparseable (d : Int) (it : Item) (s : String)
    (hm : it.mechanics = some (Json.str s)) (hp : lenientParse s = Json.null)
    (hn1 : strContains (toLowerJs it.name) "shield" = false)
    (hn2 : strContains (toLowerJs it.name) "щит" = false) :
    ∀ acc, acStep d acc it = acc := by
  intro acc
  have hstats := itemMechStats_of_unparseable it s hm hp
  unfold acStep
  by_cases he : it.equipped = some true
  · by_cases ht : it.type = "armor"
    · have hsh : isShieldStats it (itemMechStats it) = false := by
        simp [isShieldStats, hn1, hn2, hstats, jsGetT, jsStrEq]
      have hac : (jsGetT (itemMechStats it) "ac").truthy = false := by
        simp [hstats, jsGetT, Json.truthy]
      simp [he, ht, hsh, hac]
    · simp [he, ht]
  · simp [he]

/-- C2 (confirmed): the armor-class computation returns `10 + DEX modifier`
when no armor item is equipped; for a single equipped non-shield armor item
with declared (parsed) AC value `v`: `v` when its declared type is heavy,
`v + min 2 dexMod` when medium (and not heavy), `v + dexMod` when light or
unspecified (neither heavy nor medium); and appending an equipped shield
adds its bonus additively on top, independent of the armor branch. -/
theorem c2_armor_class :
    (∀ ch : Character, (∀ it ∈ ch.inventory, ¬(it.equipped = some true ∧ it.type = "armor")) →
      calculateArmorClass ch = some (10 + getModifier ch.attributes.dex))
    ∧ (∀ (ch : Character) (it : Item) (v : Int), ch.inventory = [it] →
      it.equipped = some true → it.type = "armor" →
      isShieldStats it (itemMechStats it) = false →
      (jsGetT (itemMechStats it) "ac").truthy = true →
      parseIntJs (jsToString (jsGetT (itemMechStats it) "ac")) = some v →
      (strContains (statsTypeLower (itemMechStats it)) "heavy" = true ∨
       strContains (statsTypeLower (itemMechStats it)) "тяжел" = true) →
      calculateArmorClass ch = some v)
    ∧ (∀ (ch : Character) (it : Item) (v : Int), ch.inventory = [it] →
      it.equipped = some true → it.type = "armor" →
      isShieldStats it (itemMechStats it) = false →
      (jsGetT (itemMechStats it) "ac").truthy = true →
      parseIntJs (jsToString (jsGetT (itemMechStats it) "ac")) = some v →
      strContains (statsTypeLower (itemMechStats it)) "heavy" = false →
      strContains (statsTypeLower (itemMechStats it)) "тяжел" = false →
      (strContains (statsTypeLower (itemMechStats it)) "medium" = true ∨
       strContains (statsTypeLower (itemMechStats it)) "средн" = true) →
      calculateArmorClass ch = some (v + min 2 (getModifier ch.attributes.dex)))
    ∧ (∀ (ch : Character) (it : Item) (v : Int), ch.inventory = [it] →
      it.equipped = some true → it.type = "armor" →
      isShieldStats it (itemMechStats it) = false →
      (jsGetT (itemMechStats it) "ac").truthy = true →
      parseIntJs (jsToString (jsGetT (itemMechStats it) "ac")) = some v →
      strContains (statsTypeLower (itemMechStats it)) "heavy" = false →
      strContains (statsTypeLower (itemMechStats it)) "тяжел" = false →
      strContains (statsTypeLower (itemMechStats it)) "medium" = false →
      strContains (statsTypeLower (itemMechStats it)) "средн" = false →
      calculateArmorClass ch = some (v + getModifier ch.attributes.dex))
    ∧ (∀ (ch : Character) (it : Item),
      it.equipped = some true → it.type = "armor" →
      isShieldStats it (itemMechStats it) = true →
      calculateArmorClass { ch with inventory := ch.inventory ++ [it] }
        = jsAddNum (calculateArmorClass ch) (some (shieldBonusVal (itemMechStats it)))) := by
  refine ⟨?_, ?_, ?_, ?_, ?_⟩
  · intro ch h
    have hfold := foldl_inert (acStep (getModifier ch.attributes.dex)) ch.inventory
      { baseAc := some (10 + getModifier ch.attributes.dex), shieldBonus := 0, hasArmor := false }
      (fun a ha x => acStep_inert_notArmor _ a (h a ha) x)
    simp [calculateArmorClass, hfold, jsAddNum]
  · intro ch it v hinv he ht hsh hac hv hheavy
    unfold calculateArmorClass
    rw [hinv]
    simp only [List.foldl_cons, List.foldl_nil]
    unfold acStep
    have hheavy' : (strContains (statsTypeLower (itemMechStats it)) "heavy" = true ∨
        strContains (statsTypeLower (itemMechStats it)) "тяжел" = true) := hheavy
    simp [he, ht, hsh, hac, hv, hheavy', jsAddNum]
  · intro ch it v hinv he ht hsh hac hv hh1 hh2 hmed
    unfold calculateArmorClass
    rw [hinv]
    simp only [List.foldl_cons, List.foldl_nil]
    unfold acStep
    simp [he, ht, hsh, hac, hv, hh1, hh2, hmed, jsAddNum]
  · intro ch it v hinv he ht hsh hac hv hh1 hh2 hm1 hm2
    unfold calculateArmorClass
    rw [hinv]
    simp only [List.foldl_cons, List.foldl_nil]
    unfold acStep
    simp [he, ht, hsh, hac, hv, hh1, hh2, hm1, hm2, jsAddNum]
  · intro ch it he ht hsh
    simp only [calculateArmorClass, List.foldl_append, List.foldl_cons, List.foldl_nil]
    rw [acStep_shield _ _ _ he ht hsh]
    generalize List.foldl (acStep (getModifier ch.attributes.dex))
      { baseAc := some (10 + getModifier ch.attributes.dex), shieldBonus := 0, hasArmor := false }
      ch.inventory = res
    cases hb : res.baseAc with
    | none => simp [jsAddNum, hb]
    | some a =>
      simp [jsAddNum, hb]
      ring

end DndSolo

namespace DndSolo

def c2BaseChar (dex : Int) (inv : List Item) : Character :=
  { DUMMY_CHAR with attributes := { DUMMY_CHAR.attributes with dex := dex }, inventory := inv }

def c2Heavy : Item :=
  { name := "Plate", type := "armor", description := none
    mechanics := some (Json.str "\x7b\"ac\": 16, \"type\": \"heavy\"\x7d")
    quantity := 1, equipped := some true }

def c2Medium : Item :=
  { name := "Chain Shirt", type := "armor", description := none
    mechanics := some (Json.obj [("ac", Json.num 14), ("type", Json.str "medium")])
    quantity := 1, equipped := some true }

def c2Shield : Item :=
  { name := "Shield", type := "armor", description := none
    mechanics := some (Json.obj [("ac", Json.num 2), ("type", Json.str "shield")])
    quantity := 1, equipped := some true }

/-- C2 witness: the four concrete scenarios of the claim — unarmored DEX 14
gives AC 12; equipped heavy armor with declared AC 16 gives 16 at DEX 18;
equipped medium armor AC 14 with DEX modifier +3 gives 16; an equipped
shield with bonus 2 adds +2 on top. -/
theorem c2_armor_class_witness :
    calculateArmorClass (c2BaseChar 14 []) = some 12
    ∧ calculateArmorClass (c2BaseChar 18 [c2Heavy]) = some 16
    ∧ calculateArmorClass (c2BaseChar 16 [c2Medium]) = some 16
    ∧ calculateArmorClass (c2BaseChar 16 [c2Medium, c2Shield]) = some 18 := by
  refine ⟨?_, ?_, ?_, ?_⟩
  · exact (c2_armor_class.1 (c2BaseChar 14 []) (by intro it hit; simp [c2BaseChar] at hit)).trans
      (by decide)
  · exact c2_armor_class.2.1 (c2BaseChar 18 [c2Heavy]) c2Heavy 16 rfl rfl rfl rfl rfl rfl
      (Or.inl rfl)
  · exact (c2_armor_class.2.2.1 (c2BaseChar 16 [c2Medium]) c2Medium 14 rfl rfl rfl rfl rfl rfl
      rfl rfl (Or.inl rfl)).trans (by decide)
  · have h16 : calculateArmorClass (c2BaseChar 16 [c2Medium]) = some 16 :=
      (c2_armor_class.2.2.1 (c2BaseChar 16 [c2Medium]) c2Medium 14 rfl rfl rfl rfl rfl rfl
        rfl rfl (Or.inl rfl)).trans (by decide)
    have h := c2_armor_class.2.2.2.2 (c2BaseChar 16 [c2Medium]) c2Shield rfl rfl rfl
    exact (show calculateArmorClass (c2BaseChar 16 [c2Medium, c2Shield])
        = jsAddNum (calculateArmorClass (c2BaseChar 16 [c2Medium]))
            (some (shieldBonusVal (itemMechStats c2Shield))) from h).trans
      (by rw [h16]; decide)

/-! ### C6 — unparseable mechanics annotations -/

/-- C6 (corrected): an equipped item whose mechanics annotation is a string
that fails `lenientParse` (both passes) is treated exactly as if the
annotation were absent — so long as the item's *name* does not match the
shield vocabulary it contributes nothing to the computed AC, and the
computation does not error (the parse failure is absorbed into an empty
stats object).  (A name-detected shield with unparseable mechanics still
adds the default shield bonus 2 — see the counterexample.) -/
theorem c6_unparseable_mechanics_inert :
    ∀ (ch : Character) (l1 l2 : List Item) (it : Item) (s : String),
      it.mechanics = some (Json.str s) → lenientParse s = Json.null →
      strContains (toLowerJs it.name) "shield" = false →
      strContains (toLowerJs it.name) "щит" = false →
      calculateArmorClass { ch with inventory := l1 ++ it :: l2 }
        = calculateArmorClass { ch with inventory := l1 ++ l2 } := by
  intro ch l1 l2 it s hm hp hn1 hn2
  have hinert := acStep_inert_unparseable (getModifier ch.attributes.dex) it s hm hp hn1 hn2
  simp only [calculateArmorClass, List.foldl_append, List.foldl_cons]
  rw [hinert]

def c6PlainItem : Item :=
  { name := "Кольчуга", type := "armor", description := none
    mechanics := some (Json.str "Range 30ft, 1d6"), quantity := 1, equipped := some true }

def c6PlainChar : Character := { DUMMY_CHAR with inventory := [c6PlainItem] }

/-- C6 witness: an equipped armor item named `Кольчуга` with the free-text
annotation `"Range 30ft, 1d6"` contributes nothing: the AC equals the AC of
the same character with no inventory (10 + DEX modifier = 10). -/
theorem c6_unparseable_mechanics_witness :
    calculateArmorClass c6PlainChar = calculateArmorClass { c6PlainChar with inventory := [] }
    ∧ calculateArmorClass c6PlainChar = some 10 := by
  constructor
  · exact c6_unparseable_mechanics_inert c6PlainChar [] [] c6PlainItem "Range 30ft, 1d6"
      rfl rfl rfl rfl
  · rfl

def c6ShieldItem : Item :=
  { name := "Щит", type := "armor", description := none
    mechanics := some (Json.str "sturdy oak"), quantity := 1, equipped := some true }

def c6ShieldChar : Character := { DUMMY_CHAR with inventory := [c6ShieldItem] }

/-- C6 counterexample to the claim as stated: an equipped armor item named
`Щит` whose annotation `"sturdy oak"` cannot be parsed still contributes —
the name-based shield detection adds the default bonus 2 (AC 12 instead of
the unarmored 10). -/
theorem c6_shield_name_still_contributes :
    lenientParse "sturdy oak" = Json.null
    ∧ calculateArmorClass c6ShieldChar = some 12
    ∧ calculateArmorClass { c6ShieldChar with inventory := [] } = some 10 := by
  exact ⟨rfl, rfl, rfl⟩

end DndSolo

namespace DndSolo

/-! ### C10 — exclusive armor equipping with immediate AC recompute -/

/-- C10 (confirmed): equipping a non-shield armor item via the equip toggle
unequips every other non-shield armor item (so at most one non-shield armor
item is equipped afterwards), and the character's `ac` field is immediately
recomputed by the rules-engine AC computation on the resulting inventory. -/
theorem c10_toggle_equip_exclusive :
    ∀ (char : Character) (idx : Nat) (t : Item),
      char.inventory.get? idx = some t →
      t.type = "armor" → ¬ (t.equipped = some true) → isShieldName t.name = false →
      ∃ ch', handleToggleEquip char idx = some ch'
        ∧ (∀ j it', j ≠ idx → ch'.inventory.get? j = some it' →
            it'.type = "armor" → isShieldName it'.name = false → it'.equipped = some false)
        ∧ ch'.inventory.countP
            (fun i => i.type == "armor" && !isShieldName i.name && i.equipped == some true) ≤ 1
        ∧ ch'.ac = calculateArmorClass { char with inventory := ch'.inventory } := by
  intro char idx t hget ht he hsh
  have hcond : (t.type = "armor" ∧ ¬ (t.equipped = some true) ∧ ¬ (isShieldName t.name = true)) :=
    ⟨ht, he, by simp [hsh]⟩
  have hft : (fun i : Item =>
      if i.type = "armor" ∧ ¬ (isShieldName i.name = true) then { i with equipped := some false } else i) t
      = { t with equipped := some false } := by
    simp only [ht, hsh]
    simp
  simp only [handleToggleEquip, hget, if_pos hcond]
  set f : Item → Item := fun i =>
    if i.type = "armor" ∧ ¬ (isShieldName i.name = true) then { i with equipped := some false } else i
    with hf
  set inv1 := char.inventory.map f with hinv1
  have hlen : idx < char.inventory.length := by
    have := List.get?_eq_some.mp hget
    exact this.1
  have hget1 : inv1.get? idx = some (f t) := by
    rw [hinv1, List.get?_map, hget]
    rfl
  have hget1' : inv1[idx]? = some (f t) := by
    rw [← List.get?_eq_getElem?]
    exact hget1
  have hgetD : inv1.getD idx t = f t := by
    simp [List.getD, hget1']
  rw [hgetD, hft]
  refine ⟨_, rfl, ?_, ?_, ?_⟩
  · intro j it' hj hgj htj hsj
    have hj' : inv1.get? j = some it' := by
      rw [← hgj]
      exact (List.get?_set_ne _ _ (fun hh => hj (hh.symm)) ).symm
    rw [hinv1, List.get?_map] at hj'
    cases horig : char.inventory.get? j with
    | none => rw [horig] at hj'; simp at hj'
    | some orig =>
      rw [horig] at hj'
      simp only [Option.map_some'] at hj'
      have hit : it' = f orig := by injection hj' with hh; exact hh.symm
      by_cases harm : orig.type = "armor" ∧ ¬ (isShieldName orig.name = true)
      · rw [hit, hf]
        simp [harm]
      · exfalso
        apply harm
        rw [hit, hf] at htj hsj
        by_cases hc : orig.type = "armor" ∧ ¬ (isShieldName orig.name = true)
        · exact hc
        · simp only [if_neg hc] at htj hsj
          exact ⟨htj, by simp [hsj]⟩
  · have hall : ∀ x ∈ inv1,
        (x.type == "armor" && !isShieldName x.name && x.equipped == some true) = false := by
      intro x hx
      rw [hinv1] at hx
      obtain ⟨orig, _, hxo⟩ := List.mem_map.mp hx
      by_cases hc : orig.type = "armor" ∧ ¬ (isShieldName orig.name = true)
      · rw [← hxo, hf]
        simp [hc]
      · rw [← hxo, hf]
        simp only [if_neg hc]
        rcases not_and_or.mp hc with hh | hh
        · simp [hh]
        · have : isShieldName orig.name = true := by
            by_contra hb
            exact hh (by simp [hb])
          simp [this]
    have hlen1 : idx < inv1.length := by
      rw [hinv1, List.length_map]; exact hlen
    rw [List.set_eq_take_cons_drop _ hlen1]
    rw [List.countP_append, List.countP_cons]
    have h1 : (List.take idx inv1).countP
        (fun i => i.type == "armor" && !isShieldName i.name && i.equipped == some true) = 0 := by
      rw [List.countP_eq_zero]
      intro a ha
      simp [hall a (List.take_subset _ _ ha)]
    have h2 : (List.drop (idx + 1) inv1).countP
        (fun i => i.type == "armor" && !isShieldName i.name && i.equipped == some true) = 0 := by
      rw [List.countP_eq_zero]
      intro a ha
      simp [hall a (List.drop_subset _ _ ha)]
    simp only [h1, h2]
    split <;> simp
  · rfl

def c10Leather : Item :=
  { name := "Leather", type := "armor", description := none
    mechanics := some (Json.obj [("ac", Json.num 11), ("type", Json.str "light")])
    quantity := 1, equipped := some true }

def c10ShieldIt : Item :=
  { name := "Shield", type := "armor", description := none
    mechanics := some (Json.obj [("ac", Json.num 2), ("type", Json.str "shield")])
    quantity := 1, equipped := some true }

def c10Chain : Item :=
  { name := "Chain", type := "armor", description := none
    mechanics := some (Json.obj [("ac", Json.num 16), ("type", Json.str "heavy")])
    quantity := 1, equipped := some false }

def c10Char : Character := { DUMMY_CHAR with inventory := [c10Leather, c10ShieldIt, c10Chain] }

/-- C10 witness: equipping the heavy `Chain` (index 2) unequips `Leather`,
leaves the shield equipped, and recomputes AC to 18 (heavy 16 + shield 2). -/
theorem c10_toggle_equip_witness :
    (∃ ch', handleToggleEquip c10Char 2 = some ch'
      ∧ (∀ j it', j ≠ 2 → ch'.inventory.get? j = some it' →
          it'.type = "armor" → isShieldName it'.name = false → it'.equipped = some false)
      ∧ ch'.inventory.countP
          (fun i => i.type == "armor" && !isShieldName i.name && i.equipped == some true) ≤ 1
      ∧ ch'.ac = calculateArmorClass { c10Char with inventory := ch'.inventory })
    ∧ (handleToggleEquip c10Char 2).map (fun c => c.ac) = some (some 18) := by
  constructor
  · exact c10_toggle_equip_exclusive c10Char 2 c10Chain rfl rfl (by simp [c10Chain]) rfl
  · rfl

end DndSolo

namespace DndSolo

/-! ### C1 — non-object payloads and the validation-error signal -/

/-- The fallback response the normalizer returns for a payload that is not
an object.  Note: it carries an error **narrative**, not a
`validationError`. -/
def invalidStructureResponse : AIResponse :=
  { narrative := "Error: AI returned invalid data structure."
    options := ["Retry"]
    isGameOver := false
    isLevelUp := false
    validationError := none
    characterUpdate := none
    worldUpdate := none
    check := none
    levelUpOptions := none }

/-- C1 (corrected): for every payload that is not an object the normalizer
returns — without throwing — a fallback response carrying an error
narrative and a "Retry" option but **no** `validationError` and no
`characterUpdate`; the caller aborts the turn (no state change) only when
the response carries a truthy `validationError` string; with no
`characterUpdate` present the merge leaves the persisted character
untouched, but the turn is *not* aborted: it proceeds and appends the error
narrative to the history.  (The normalizer *can* throw on object payloads
with `null` entries in `inventory`/`features`/`levelUpOptions` — see the
counterexample.) -/
theorem c1_invalid_payload_handling :
    (∀ raw : Json, raw.isObjectLike = false → normalizeAIResponse raw = .ok invalidStructureResponse)
    ∧ (∀ (st : GameState) (resp : AIResponse) (now : Nat), (resp.validationError.getD "") ≠ "" →
        processNormalized st resp now = none)
    ∧ (∀ (st : GameState) (resp : AIResponse) (now : Nat), resp.characterUpdate = none →
        (applyAIResponse st resp now).character = st.character)
    ∧ (∀ (st : GameState) (now : Nat),
        processNormalized st invalidStructureResponse now
          = some (applyAIResponse st invalidStructureResponse now)
        ∧ (applyAIResponse st invalidStructureResponse now).history
            = st.history ++ [{ id := toString now, role := "model"
                               text := "Error: AI returned invalid data structure."
                               timestamp := now }]) := by
  refine ⟨?_, ?_, ?_, ?_⟩
  · intro raw h
    simp [normalizeAIResponse, h, invalidStructureResponse]
  · intro st resp now h
    simp [processNormalized, h]
  · intro st resp now h
    simp only [applyAIResponse, h]
    cases resp.worldUpdate <;> cases resp.check <;> cases resp.levelUpOptions <;> simp
  · intro st now
    constructor
    · simp [processNormalized, invalidStructureResponse]
    · simp [applyAIResponse, invalidStructureResponse]

def c1BadPayload : Json :=
  Json.obj [("characterUpdate", Json.obj [("inventory", Json.arr [Json.null])])]

/-- C1 counterexample to the claim as stated: a non-object payload (`null`)
yields a response whose `validationError` is absent — so the caller's
validation-abort branch does not fire for it — and an object payload whose
inventory contains a `null` entry makes the normalizer throw. -/
theorem c1_no_validation_error_signal :
    (normalizeAIResponse Json.null = .ok invalidStructureResponse
      ∧ invalidStructureResponse.validationError = none)
    ∧ normalizeAIResponse c1BadPayload = .error () := by
  exact ⟨⟨rfl, rfl⟩, rfl⟩

/-- C1 witness: concrete instantiations of the amended behaviour. -/
theorem c1_invalid_payload_handling_witness :
    normalizeAIResponse (Json.str "oops") = .ok invalidStructureResponse
    ∧ processNormalized INITIAL_GAME_STATE
        { invalidStructureResponse with validationError := some "bad" } 0 = none
    ∧ (applyAIResponse INITIAL_GAME_STATE invalidStructureResponse 0).character
        = INITIAL_GAME_STATE.character := by
  refine ⟨c1_invalid_payload_handling.1 _ rfl, ?_, c1_invalid_payload_handling.2.2.1 _ _ _ rfl⟩
  exact c1_invalid_payload_handling.2.1 _ _ _ (by decide)

end DndSolo

namespace DndSolo

/-! ### C5 — death-save counters and the [0,3] range -/

def dsInRange (d : DeathSaves) : Prop :=
  0 ≤ d.successes ∧ d.successes ≤ 3 ∧ 0 ≤ d.failures ∧ d.failures ≤ 3

/-- C5 (corrected): the normalizer and the merge pass death-save counters
through **unclamped** — they stay in `[0, 3]` only when the incoming payload
values already are (first two conjuncts); death-save roll resolution does
preserve the range: increments are capped at 3 from above and cannot leave
the range from an in-range start, and revival resets both counters to 0
(third conjunct). -/
theorem c5_death_save_range :
    (∀ (v : Json) (x y : Int), jsGetT v "successes" = Json.num x → jsGetT v "failures" = Json.num y →
      0 ≤ x → x ≤ 3 → 0 ≤ y → y ≤ 3 → dsInRange (normalizeDeathSaves v))
    ∧ (∀ (old : Character) (upd : CharUpdate), dsInRange old.deathSaves →
        (∀ d, upd.deathSaves = some d → dsInRange d) →
        dsInRange (mergeCharacter old upd).deathSaves)
    ∧ (∀ (c : Character) (success : Bool) (roll : Option Int), dsInRange c.deathSaves →
        dsInRange (applyDeathSave c success roll).deathSaves) := by
  refine ⟨?_, ?_, ?_⟩
  · intro v x y hx hy h1 h2 h3 h4
    simp only [normalizeDeathSaves, hx, hy, coerceNumber, Option.getD_some]
    exact ⟨h1, h2, h3, h4⟩
  · intro old upd hold hupd
    cases h : upd.deathSaves with
    | none => simpa [mergeCharacter, h] using hold
    | some d => simpa [mergeCharacter, h] using hupd d h
  · intro c success roll h
    obtain ⟨h1, h2, h3, h4⟩ := h
    cases success with
    | true =>
      by_cases hr : roll = some 20
      · simp [applyDeathSave, hr, dsInRange]
      · simp only [applyDeathSave, if_pos, if_neg hr, Bool.true_eq_false]
        simp only [dsInRange]
        refine ⟨?_, ?_, h3, h4⟩ <;> rw [min_def] <;> split_ifs <;> omega
    | false =>
      by_cases hr : roll = some 1
      · simp only [applyDeathSave, hr, if_pos, Bool.false_eq_true, if_false, if_true]
        simp only [dsInRange]
        refine ⟨h1, h2, ?_, ?_⟩ <;> rw [min_def] <;> split_ifs <;> omega
      · simp only [applyDeathSave, hr, Bool.false_eq_true, if_false]
        simp only [dsInRange]
        refine ⟨h1, h2, ?_, ?_⟩ <;> rw [min_def] <;> split_ifs <;> omega

def c5Payload : Json :=
  Json.obj [("characterUpdate", Json.obj [("deathSaves", Json.obj [("successes", Json.num 5)])])]

/-- C5 counterexample to the claim as stated: a payload carrying
`deathSaves.successes = 5` is normalized and merged verbatim — the merged
character's counter is 5, outside `[0, 3]`. -/
theorem c5_counters_not_clamped :
    ∃ resp upd, normalizeAIResponse c5Payload = .ok resp
      ∧ resp.characterUpdate = some upd
      ∧ upd.deathSaves = some { successes := 5, failures := 0 }
      ∧ (mergeCharacter DUMMY_CHAR upd).deathSaves.successes = 5
      ∧ ¬ ((mergeCharacter DUMMY_CHAR upd).deathSaves.successes ≤ 3) := by
  refine ⟨_, _, rfl, rfl, rfl, rfl, by decide⟩

/-- C5 witness: in-range payload values stay in range through normalization,
and a natural-1 death-save failure keeps the counters in range. -/
theorem c5_death_save_range_witness :
    dsInRange (normalizeDeathSaves (Json.obj [("successes", Json.num 2), ("failures", Json.num 1)]))
    ∧ dsInRange (applyDeathSave DUMMY_CHAR false (some 1)).deathSaves := by
  constructor
  · exact c5_death_save_range.1 _ 2 1 rfl rfl (by norm_num) (by norm_num) (by norm_num)
      (by norm_num)
  · exact c5_death_save_range.2.2 DUMMY_CHAR false (some 1)
      (by simp [dsInRange, DUMMY_CHAR])

end DndSolo

namespace DndSolo

/-! ### C4 — inventory merge and the `equipped` flag -/

def c4OldSword : Item :=
  { name := "Sword", type := "weapon", description := some "sharp"
    mechanics := some (Json.str "1d8"), quantity := 1, equipped := some true }

def c4Raw : Json :=
  Json.obj [("characterUpdate", Json.obj [("inventory", Json.arr [Json.obj [("name", Json.str "Sword")]])])]

def c4State : GameState :=
  { INITIAL_GAME_STATE with
    phase := .gameplay
    character := some { DUMMY_CHAR with inventory := [c4OldSword] } }

/-- C4 (code bug): the raw update item carries **no** `equipped` key, the
pre-merge `Sword` is equipped, yet after normalization and merge the item
is unequipped — `normalizeInventory` materializes `equipped: !!item.equipped`
on every incoming item, so the merge's
`newItem.equipped !== undefined ? newItem.equipped : existing.equipped`
preservation branch is dead code for normalizer-produced items. -/
theorem c4_merge_overwrites_equipped :
    jsGetT (Json.obj [("name", Json.str "Sword")]) "equipped" = Json.undefined
    ∧ (∃ ch, c4State.character = some ch ∧ ch.inventory.map (fun i => i.equipped) = [some true])
    ∧ (∃ resp st', normalizeAIResponse c4Raw = .ok resp
        ∧ processNormalized c4State resp 9 = some st'
        ∧ ∃ ch', st'.character = some ch'
          ∧ ch'.inventory.map (fun i => i.equipped) = [some false]) := by
  exact ⟨rfl, ⟨_, rfl, rfl⟩, ⟨_, _, rfl, rfl, ⟨_, rfl, rfl⟩⟩⟩

end DndSolo

namespace DndSolo

/-! ### C7 — ammunition synthesis for ranged weapons -/

lemma normalizeCharUpdate_inventory (c : Json) (u : CharUpdate) (inv : List Item)
    (hok : normalizeCharUpdate c = .ok u)
    (ht : (jsGetT c "inventory").truthy = true)
    (hinv : normalizeInventory (jsGetT c "inventory") = .ok inv) :
    u.inventory = some (applyAmmoCheck inv) := by
  simp only [normalizeCharUpdate, ht, if_true, reduceIte, hinv, Except.map, bind, Except.bind,
    pure, Except.pure] at hok
  split at hok
  · split at hok
    · simp at hok
    · injection hok with hh
      rw [← hh]
      simp
  · injection hok with hh
    rw [← hh]
    simp

/-- C7 (confirmed): whenever the normalized inventory of a character update
contains an item whose name matches the ranged-weapon vocabulary and no item
of category `ammo` nor one whose name matches the ammunition vocabulary, the
normalizer appends the synthesized ammunition stack (quantity 20, category
`ammo`) before returning. -/
theorem c7_ammo_synthesis :
    (∀ (raw : Json) (resp : AIResponse) (upd : CharUpdate) (inv : List Item),
      normalizeAIResponse raw = .ok resp →
      resp.characterUpdate = some upd →
      (jsGetT (jsGetT raw "characterUpdate") "inventory").truthy = true →
      normalizeInventory (jsGetT (jsGetT raw "characterUpdate") "inventory") = .ok inv →
      inv.any (fun i => isRangedName i.name) = true →
      inv.any isAmmoLike = false →
      upd.inventory = some (inv ++ [defaultAmmoItem]))
    ∧ defaultAmmoItem.quantity = 20 ∧ defaultAmmoItem.type = "ammo" := by
  refine ⟨?_, rfl, rfl⟩
  intro raw resp upd inv hok hcu htruthy hinv hr ha
  by_cases hobj : raw.isObjectLike = true
  · simp only [normalizeAIResponse, hobj, Bool.not_eq_true, Bool.true_eq_false, if_false,
      reduceIte] at hok
    simp only [not_true, if_false] at hok
    by_cases hco : (jsGetT raw "characterUpdate").isObjectLike = true
    · simp only [hco, if_true, reduceIte] at hok
      cases hcu' : normalizeCharUpdate (jsGetT raw "characterUpdate") with
      | error e =>
        rw [hcu'] at hok
        simp only [Except.map, bind, Except.bind] at hok
        simp at hok
      | ok u =>
        rw [hcu'] at hok
        simp only [Except.map, bind, Except.bind, pure, Except.pure] at hok
        have hfin : resp.characterUpdate = some u := by
          split at hok
          · split at hok
            · simp at hok
            · injection hok with hh; rw [← hh]
          · injection hok with hh; rw [← hh]
        rw [hfin] at hcu
        injection hcu with hu
        subst hu
        rw [normalizeCharUpdate_inventory _ _ inv hcu' htruthy hinv]
        simp [applyAmmoCheck, hr, ha]
    · simp only [hco, Bool.false_eq_true, if_false, reduceIte] at hok
      have hfin : resp.characterUpdate = none := by
        simp only [bind, Except.bind, pure, Except.pure] at hok
        split at hok
        · split at hok
          · simp at hok
          · injection hok with hh; rw [← hh]
        · injection hok with hh; rw [← hh]
      rw [hfin] at hcu
      exact absurd hcu (by simp)
  · simp only [Bool.not_eq_true] at hobj
    simp only [normalizeAIResponse, hobj, Bool.false_eq_true, not_false_eq_true, if_true,
      reduceIte] at hok
    injection hok with hh
    rw [← hh] at hcu
    exact absurd hcu (by simp)

def c7Raw : Json :=
  Json.obj [("characterUpdate", Json.obj [("inventory", Json.arr [Json.obj [("name", Json.str "Longbow")]])])]

def c7LongbowItem : Item :=
  { name := "Longbow", type := "misc", description := none
    mechanics := some Json.undefined, quantity := 1, equipped := some false }

/-- C7 witness: normalizing a character update whose inventory is
`[{name: "Longbow"}]` (and no ammo item) yields the Longbow followed by the
synthesized ammo stack of quantity 20. -/
theorem c7_ammo_synthesis_witness :
    ∃ resp upd, normalizeAIResponse c7Raw = .ok resp
      ∧ resp.characterUpdate = some upd
      ∧ upd.inventory = some ([c7LongbowItem] ++ [defaultAmmoItem])
      ∧ defaultAmmoItem.quantity = 20 := by
  refine ⟨_, _, rfl, rfl, ?_, c7_ammo_synthesis.2.1⟩
  exact c7_ammo_synthesis.1 c7Raw _ _ [c7LongbowItem] rfl rfl rfl rfl rfl rfl

end DndSolo

namespace DndSolo

/-! ### C3 — death-save roll resolution -/

/-- C3 (corrected): death-save resolution applies no ability modifier and no
proficiency bonus (the modifier is 0); a natural 20 revives the character to
1 hp and clears both counters **provided the roll meets the check's DC**
(`20 ≥ dc`; the default DC is 10, but the death-save branch still compares
against the check's declared difficulty); a natural 1 counts as two failures
**provided the roll fails against the DC**; and whenever the accumulated
failures reach 3 the phase is set to `gameover` synchronously and no
follow-up narrative call is issued for that roll. -/
theorem c3_death_save_resolution :
    ∀ (st : GameState) (check : CheckReq) (c : Character) (rand1 rand2 : Nat → Nat → Nat) (now : Nat),
      st.pendingCheck = some check → isDeathSaveCheck check = true → st.character = some c →
      rollModifier st check = 0
      ∧ (∀ res calls, handleRollResolve st .normal rand1 rand2 now = some (res, calls) →
          (parseAndRoll (if check.dice ≠ "" then check.dice else "1d20") rand1 = some 20 →
           (20 : Int) ≥ (if check.difficulty ≠ 0 then check.difficulty else 10) →
           res.character = some { c with hp := 1, deathSaves := { successes := 0, failures := 0 } })
          ∧ (parseAndRoll (if check.dice ≠ "" then check.dice else "1d20") rand1 = some 1 →
           ¬ ((1 : Int) ≥ (if check.difficulty ≠ 0 then check.difficulty else 10)) →
           res.character = some { c with deathSaves :=
             { c.deathSaves with failures := min 3 (c.deathSaves.failures + 2) } })
          ∧ (∀ c', res.character = some c' → c'.deathSaves.failures ≥ 3 →
           res.phase = .gameover ∧ calls = false)) := by
  intro st check c rand1 rand2 now hpc hds hchar
  have hmod : rollModifier st check = 0 := by
    simp [rollModifier, hds]
  refine ⟨hmod, ?_⟩
  intro res calls hres
  simp only [handleRollResolve, hpc, hds, hchar, hmod] at hres
  injection hres with h1
  have hS := congrArg Prod.fst h1
  have hB := congrArg Prod.snd h1
  simp only at hS hB
  refine ⟨?_, ?_, ?_⟩
  · intro hroll hdc
    rw [← hS]
    simp only [hroll, jsAddNum, jsGeNum]
    have hsucc : ((20 : Int) + 0 ≥ (if check.difficulty ≠ 0 then check.difficulty else 10)) := by
      omega
    simp [applyDeathSave, hsucc]
    intro hlt
    exfalso
    by_cases h0 : check.difficulty = 0 <;> simp [h0] at hdc hlt <;> omega
  · intro hroll hdc
    rw [← hS]
    simp only [hroll, jsAddNum, jsGeNum]
    have hfail : ¬ ((1 : Int) + 0 ≥ (if check.difficulty ≠ 0 then check.difficulty else 10)) := by
      omega
    simp [applyDeathSave, hfail]
    intro hlt
    exfalso
    by_cases h0 : check.difficulty = 0 <;> simp [h0] at hdc hlt <;> omega
  · intro c' hc' hge
    rw [← hS] at hc'
    simp only [if_true, Option.some.injEq] at hc'
    subst hc'
    simp only [ne_eq, ite_not] at hge
    constructor
    · rw [← hS]
      simp [hge]
    · rw [← hB]
      simp [hge]

def c3Check10 : CheckReq :=
  { attr := "con", difficulty := 10, dice := "1d20", reason := "Death Save"
    successRisk := "S", failRisk := "F", isAttack := false, isSave := true, damageDice := none }

def c3CharF1 : Character :=
  { DUMMY_CHAR with hp := 0, deathSaves := { successes := 0, failures := 1 } }

def c3State10 : GameState :=
  { INITIAL_GAME_STATE with
    phase := .gameplay
    character := some c3CharF1
    pendingCheck := some c3Check10 }

/-- C3 witness: at DC 10, a natural 1 on a death save with one prior failure
adds two failures (reaching 3), forces `gameover` synchronously, and issues
no follow-up narrative call; the modifier applied is 0. -/
theorem c3_death_save_resolution_witness :
    rollModifier c3State10 c3Check10 = 0
    ∧ ∃ res calls, handleRollResolve c3State10 .normal (fun _ _ => 0) (fun _ _ => 5) 7 = some (res, calls)
      ∧ res.character = some { c3CharF1 with deathSaves :=
          { c3CharF1.deathSaves with failures := min 3 (c3CharF1.deathSaves.failures + 2) } }
      ∧ res.phase = .gameover ∧ calls = false := by
  have h := c3_death_save_resolution c3State10 c3Check10 c3CharF1 (fun _ _ => 0) (fun _ _ => 5) 7
    rfl rfl rfl
  refine ⟨h.1, _, _, rfl, ?_, ?_, ?_⟩
  · exact (h.2 _ _ rfl).2.1 rfl (by decide)
  · exact ((h.2 _ _ rfl).2.2 _ ((h.2 _ _ rfl).2.1 rfl (by decide)) (by decide)).1
  · exact ((h.2 _ _ rfl).2.2 _ ((h.2 _ _ rfl).2.1 rfl (by decide)) (by decide)).2

def c3Check25 : CheckReq :=
  { attr := "con", difficulty := 25, dice := "1d20", reason := "Death Save"
    successRisk := "S", failRisk := "F", isAttack := false, isSave := true, damageDice := none }

def c3Char25 : Character :=
  { DUMMY_CHAR with hp := 0, deathSaves := { successes := 0, failures := 0 } }

def c3State25 : GameState :=
  { INITIAL_GAME_STATE with
    phase := .gameplay
    character := some c3Char25
    pendingCheck := some c3Check25 }

/-- C3 counterexample to the claim as stated: on a death-save check whose
declared difficulty is 25, a natural 20 does **not** revive the character —
the roll fails against the DC and a failure is recorded instead. -/
theorem c3_nat20_no_revive_at_high_dc :
    isDeathSaveCheck c3Check25 = true
    ∧ parseAndRoll "1d20" (fun _ _ => 19) = some 20
    ∧ ∃ res calls, handleRollResolve c3State25 .normal (fun _ _ => 19) (fun _ _ => 0) 7 = some (res, calls)
      ∧ ∃ ch, res.character = some ch ∧ ch.hp = 0
        ∧ ch.deathSaves = { successes := 0, failures := 1 } := by
  refine ⟨rfl, rfl, _, _, rfl, _, rfl, rfl, rfl⟩

end DndSolo
